import Mathlib

/-!
Verification of the dual-mode numeric value framework of go-z3.

The repository pairs a native (concrete) execution path for each numeric
kind with a symbolic encoding resolved by the Z3 solver, and cross-checks
the two with an equivalence oracle.  This file embeds both paths:

* the native path follows the Go semantics the spec describes
  (two's-complement wraparound for fixed-width kinds, truncating signed
  division, arithmetic right shift for signed kinds);
* the symbolic path follows the SMT-LIB bit-vector and integer theories
  that Z3 implements (`bvadd`, `bvsdiv`, `bvashr`, ... defined on bit
  patterns, i.e. naturals below `2 ^ w`).

The oracle's representative value sets are taken from the test drivers
`TestEquivInt8` .. `TestEquivUint64`.
-/

/-- Bit patterns of width `w` are naturals below `2 ^ w`.  `bvneg` is the
SMT-LIB two's-complement negation `nat2bv (2^w - bv2nat x)`. -/
def bvneg (w p : Nat) : Nat := (2 ^ w - p) % 2 ^ w

/-- SMT-LIB `bvnot`: flip every bit of a width-`w` pattern. -/
def bvnot (w p : Nat) : Nat := 2 ^ w - 1 - p

/-- Most significant bit of a width-`w` pattern. -/
def msbOf (w p : Nat) : Bool := decide (2 ^ (w - 1) ≤ p)

/-- Bitwise difference `m AND (NOT n)` on naturals, written with the
kernel-reducible `Nat.land`. -/
def natDiff (m n : Nat) : Nat := m - Nat.land m n

/-- Two's-complement bitwise AND on integers, as Go computes `a & b` for a
signed operand pair (negative integers behave as infinite-ones patterns). -/
def intAnd : Int → Int → Int
  | .ofNat m, .ofNat n => .ofNat (Nat.land m n)
  | .ofNat m, .negSucc n => .ofNat (natDiff m n)
  | .negSucc m, .ofNat n => .ofNat (natDiff n m)
  | .negSucc m, .negSucc n => .negSucc (Nat.lor m n)

/-- Two's-complement bitwise OR on integers (Go `a | b` on signed kinds). -/
def intOr : Int → Int → Int
  | .ofNat m, .ofNat n => .ofNat (Nat.lor m n)
  | .ofNat m, .negSucc n => .negSucc (natDiff n m)
  | .negSucc m, .ofNat n => .negSucc (natDiff m n)
  | .negSucc m, .negSucc n => .negSucc (Nat.land m n)

/-- Two's-complement bitwise XOR on integers (Go `a ^ b` on signed kinds). -/
def intXor : Int → Int → Int
  | .ofNat m, .ofNat n => .ofNat (Nat.xor m n)
  | .ofNat m, .negSucc n => .negSucc (Nat.xor m n)
  | .negSucc m, .ofNat n => .negSucc (Nat.xor m n)
  | .negSucc m, .negSucc n => .ofNat (Nat.xor m n)

/-- Two's-complement `a AND NOT b` on integers (Go `a &^ b` on signed kinds). -/
def intAndNot : Int → Int → Int
  | .ofNat m, .ofNat n => .ofNat (natDiff m n)
  | .ofNat m, .negSucc n => .ofNat (Nat.land m n)
  | .negSucc m, .ofNat n => .negSucc (Nat.lor m n)
  | .negSucc m, .negSucc n => .ofNat (natDiff n m)

/-- Wrap an integer into the signed range `[-2^(w-1), 2^(w-1))`, the Go
two's-complement overflow behaviour for a width-`w` signed kind. -/
def wrapS (w : Nat) (x : Int) : Int :=
  (x + 2 ^ (w - 1)) % (2 ^ w : Nat) - 2 ^ (w - 1)

/-- Encode a signed value of width `w` as its two's-complement bit pattern. -/
def toBits (w : Nat) (a : Int) : Nat := (a % (2 ^ w : Nat)).toNat

/-- Binary operators of the dual-value framework that yield a value of the
same kind (arithmetic, bitwise, shift).

Modelled from the spec: the operator battery of the dual value types
(`st` package, not included in the sources) covers "arithmetic, comparison,
bitwise, shift" operators; the kinds and methods follow the Go operator set
the spec's Operator Table describes. -/
inductive AOp where
  | add | sub | mul | div | rem
  | and | or | xor | andNot
  | shl | shr

/-- Comparison operators of the dual-value framework (result kind boolean).

Modelled from the spec: operator descriptors whose symbol is one of
`==`, `!=`, `<`, `<=`, `>`, `>=`. -/
inductive COp where
  | eq | ne | lt | le | gt | ge

/-- All value-valued binary operators, in table order. -/
def allAOps : List AOp :=
  [.add, .sub, .mul, .div, .rem, .and, .or, .xor, .andNot, .shl, .shr]

/-- All comparison operators, in table order. -/
def allCOps : List COp := [.eq, .ne, .lt, .le, .gt, .ge]

/-- Native (concrete-path) semantics of the value operators on an unsigned
kind of width `w`, operands taken as naturals below `2 ^ w`.

Modelled from the spec: the concrete path of the dual value types computes
the Go result directly; fixed-width arithmetic wraps silently, shifts are
logical, division truncates (= floors, as operands are non-negative). -/
def goUArith (w : Nat) : AOp → Nat → Nat → Nat
  | .add, a, b => (a + b) % 2 ^ w
  | .sub, a, b => (2 ^ w + a - b) % 2 ^ w
  | .mul, a, b => a * b % 2 ^ w
  | .div, a, b => a / b
  | .rem, a, b => a % b
  | .and, a, b => Nat.land a b
  | .or, a, b => Nat.lor a b
  | .xor, a, b => Nat.xor a b
  | .andNot, a, b => natDiff a b
  | .shl, a, b => (a <<< b) % 2 ^ w
  | .shr, a, b => a >>> b

/-- Native comparison semantics on an unsigned kind. -/
def goUCmp : COp → Nat → Nat → Bool
  | .eq, a, b => a == b
  | .ne, a, b => a != b
  | .lt, a, b => decide (a < b)
  | .le, a, b => decide (a ≤ b)
  | .gt, a, b => decide (b < a)
  | .ge, a, b => decide (b ≤ a)

/-- Symbolic-path semantics of the value operators on an unsigned kind:
the SMT-LIB bit-vector theory operations Z3 evaluates, on bit patterns.
`bvsub` is `bvadd s (bvneg t)`, `bvshl`/`bvlshr` multiply/divide by
`2 ^ shift`, `a &^ b` is encoded as `bvand a (bvnot b)`. -/
def bvArithU (w : Nat) : AOp → Nat → Nat → Nat
  | .add, p, q => (p + q) % 2 ^ w
  | .sub, p, q => (p + bvneg w q) % 2 ^ w
  | .mul, p, q => p * q % 2 ^ w
  | .div, p, q => p / q
  | .rem, p, q => p % q
  | .and, p, q => Nat.land p q
  | .or, p, q => Nat.lor p q
  | .xor, p, q => Nat.xor p q
  | .andNot, p, q => Nat.land p (bvnot w q)
  | .shl, p, q => p * 2 ^ q % 2 ^ w
  | .shr, p, q => p / 2 ^ q

/-- Symbolic comparison semantics on an unsigned kind (`bvult` and friends
are the natural-number order on patterns). -/
def bvCmpU : COp → Nat → Nat → Bool
  | .eq, p, q => p == q
  | .ne, p, q => p != q
  | .lt, p, q => decide (p < q)
  | .le, p, q => decide (p ≤ q)
  | .gt, p, q => decide (q < p)
  | .ge, p, q => decide (q ≤ p)

/-- Native (concrete-path) semantics of the value operators on a signed kind
of width `w`, operands in `[-2^(w-1), 2^(w-1))`.

Modelled from the spec: Go semantics — wraparound add/sub/mul, truncating
division that wraps on overflow (`MinInt / -1 = MinInt`), remainder with the
sign of the dividend, two's-complement bitwise operators, wrapping left
shift and arithmetic right shift. -/
def goSArith (w : Nat) : AOp → Int → Int → Int
  | .add, a, b => wrapS w (a + b)
  | .sub, a, b => wrapS w (a - b)
  | .mul, a, b => wrapS w (a * b)
  | .div, a, b => wrapS w (a.tdiv b)
  | .rem, a, b => a.tmod b
  | .and, a, b => intAnd a b
  | .or, a, b => intOr a b
  | .xor, a, b => intXor a b
  | .andNot, a, b => intAndNot a b
  | .shl, a, b => wrapS w (a * (2 ^ b.toNat : Nat))
  | .shr, a, b => a.fdiv (2 ^ b.toNat : Nat)

/-- Native comparison semantics on a signed kind. -/
def goSCmp : COp → Int → Int → Bool
  | .eq, a, b => a == b
  | .ne, a, b => a != b
  | .lt, a, b => decide (a < b)
  | .le, a, b => decide (a ≤ b)
  | .gt, a, b => decide (b < a)
  | .ge, a, b => decide (b ≤ a)

/-- SMT-LIB `bvsdiv` on width-`w` patterns: case split on the sign bits,
reduced to unsigned division of the magnitudes. -/
def bvsdiv (w p q : Nat) : Nat :=
  match msbOf w p, msbOf w q with
  | false, false => p / q
  | true, false => bvneg w (bvneg w p / q)
  | false, true => bvneg w (p / bvneg w q)
  | true, true => bvneg w p / bvneg w q

/-- SMT-LIB `bvsrem` (sign follows the dividend). -/
def bvsrem (w p q : Nat) : Nat :=
  match msbOf w p, msbOf w q with
  | false, false => p % q
  | true, false => bvneg w (bvneg w p % q)
  | false, true => p % bvneg w q
  | true, true => bvneg w (bvneg w p % bvneg w q)

/-- SMT-LIB `bvashr`: logical shift for a clear sign bit, complemented
logical shift for a set sign bit. -/
def bvashr (w p q : Nat) : Nat :=
  if msbOf w p then bvnot w (bvnot w p / 2 ^ q) else p / 2 ^ q

/-- Symbolic-path semantics of the value operators on a signed kind: the
SMT-LIB bit-vector theory operations on two's-complement patterns. -/
def bvArithS (w : Nat) : AOp → Nat → Nat → Nat
  | .add, p, q => (p + q) % 2 ^ w
  | .sub, p, q => (p + bvneg w q) % 2 ^ w
  | .mul, p, q => p * q % 2 ^ w
  | .div, p, q => bvsdiv w p q
  | .rem, p, q => bvsrem w p q
  | .and, p, q => Nat.land p q
  | .or, p, q => Nat.lor p q
  | .xor, p, q => Nat.xor p q
  | .andNot, p, q => Nat.land p (bvnot w q)
  | .shl, p, q => p * 2 ^ q % 2 ^ w
  | .shr, p, q => bvashr w p q

/-- SMT-LIB `bvslt` on width-`w` patterns. -/
def bvslt (w p q : Nat) : Bool :=
  (msbOf w p && !msbOf w q) || (msbOf w p == msbOf w q && decide (p < q))

/-- Symbolic comparison semantics on a signed kind (`bvslt` and the
operators Z3 derives from it). -/
def bvCmpS (w : Nat) : COp → Nat → Nat → Bool
  | .eq, p, q => p == q
  | .ne, p, q => p != q
  | .lt, p, q => bvslt w p q
  | .le, p, q => bvslt w p q || p == q
  | .gt, p, q => bvslt w q p
  | .ge, p, q => bvslt w q p || p == q

/-- Operand pairs the oracle admits on an unsigned kind: the spec's
edge-case policy excludes division and remainder by zero and shift amounts
reaching the bit width. -/
def admissibleU (w : Nat) : AOp → Nat → Bool
  | .div, b => b != 0
  | .rem, b => b != 0
  | .shl, b => decide (b < w)
  | .shr, b => decide (b < w)
  | _, _ => true

/-- Operand pairs the oracle admits on a signed kind: no division or
remainder by zero, shift amounts within `[0, w)`. -/
def admissibleS (w : Nat) : AOp → Int → Bool
  | .div, b => b != 0
  | .rem, b => b != 0
  | .shl, b => decide (0 ≤ b) && decide (b < (w : Int))
  | .shr, b => decide (0 ≤ b) && decide (b < (w : Int))
  | _, _ => true

/-- Oracle check for an unsigned kind of width `w` over the representative
value list `V`: on every admissible pair, the native result coincides with
the value the symbolic bit-vector encoding yields, and the native
comparisons coincide with the symbolic ones. -/
def checkKindU (w : Nat) (V : List Nat) : Bool :=
  (allAOps.all fun op => V.all fun a => V.all fun b =>
    !admissibleU w op b || (goUArith w op a b == bvArithU w op a b)) &&
  (allCOps.all fun op => V.all fun a => V.all fun b =>
    goUCmp op a b == bvCmpU op a b)

/-- Oracle check for a signed kind of width `w`: the bit pattern of the
native result coincides with the pattern the symbolic encoding yields, and
native and symbolic comparisons agree. -/
def checkKindS (w : Nat) (V : List Int) : Bool :=
  (allAOps.all fun op => V.all fun a => V.all fun b =>
    !admissibleS w op b ||
      (toBits w (goSArith w op a b) == bvArithS w op (toBits w a) (toBits w b))) &&
  (allCOps.all fun op => V.all fun a => V.all fun b =>
    goSCmp op a b == bvCmpS w op (toBits w a) (toBits w b))

/-- Representative values of `TestEquivInt8`. -/
def int8Reps : List Int := [0, 1, -1, 7, 8, 127, -128]

/-- Representative values of `TestEquivInt16`. -/
def int16Reps : List Int := [0, 1, -1, 15, 16, 32767, -32768]

/-- Representative values of `TestEquivInt64`. -/
def int64Reps : List Int := [0, 1, -1, 63, 64, 2147483647, -2147483648]

/-- Representative values of `TestEquivUint8`. -/
def uint8Reps : List Nat := [0, 1, 7, 8, 255]

/-- Representative values of `TestEquivUint16`. -/
def uint16Reps : List Nat := [0, 1, 15, 16, 65535]

/-- Representative values of `TestEquivUint64`. -/
def uint64Reps : List Nat := [0, 1, 63, 64, 4294967295]

/-- Session of step 2 of the oracle protocol: operands constrained to the
literals `a`, `b`, and `symbolic_result == r` asserted; the proposition is
satisfiability of that session. -/
def sessionOneSatU (w : Nat) (op : AOp) (a b r : Nat) : Prop :=
  ∃ xa xb, xa = a ∧ xb = b ∧ bvArithU w op xa xb = r

/-- Session of step 3 of the oracle protocol: operands constrained to the
literals and `symbolic_result != r` asserted; the proposition is
unsatisfiability of that session. -/
def sessionTwoUnsatU (w : Nat) (op : AOp) (a b r : Nat) : Prop :=
  ¬ ∃ xa xb, xa = a ∧ xb = b ∧ bvArithU w op xa xb ≠ r

/-- Step-2 session for a signed kind, on bit patterns. -/
def sessionOneSatS (w : Nat) (op : AOp) (p q r : Nat) : Prop :=
  ∃ xa xb, xa = p ∧ xb = q ∧ bvArithS w op xa xb = r

/-- Step-3 session for a signed kind, on bit patterns. -/
def sessionTwoUnsatS (w : Nat) (op : AOp) (p q r : Nat) : Prop :=
  ¬ ∃ xa xb, xa = p ∧ xb = q ∧ bvArithS w op xa xb ≠ r

/-! ## Unbounded-integer kind: division conventions (C3) -/

/-- Modelled from the spec: the concrete path of the unbounded-integer kind
(`st.Integer`, not included in the sources) divides by the floor
convention, so `div(23, 5) = 4`. -/
def integerDiv (a b : Int) : Int := a.fdiv b

/-- Modelled from the spec: the concrete path's remainder for the
unbounded-integer kind follows floor division (result has the sign of the
divisor), so `rem(-23, 5) = 2`. -/
def integerRem (a b : Int) : Int := a.fmod b

/-- Symbolic path of the unbounded-integer kind: Z3's integer division.
As the test `TestIntDiv` documents, Z3 integer division floors for a
positive divisor. -/
def z3IntDiv (a b : Int) : Int := a.fdiv b

/-- Symbolic path of the unbounded-integer kind: Z3's `Rem`, which the test
`TestIntRem` documents as based on floored division. -/
def z3IntRem (a b : Int) : Int := a.fmod b

/-- Z3's `Mod` on the integer sort (`TestIntMod`: `23 mod 5 = 3`). -/
def z3IntMod (a b : Int) : Int := a.emod b

/-! ## Decimal projection of concrete values (C4) -/

/-- Decimal digit character. -/
def digitChar (d : Nat) : Char := Char.ofNat (48 + d)

/-- Fuel-driven decimal digit list of a natural (most significant first). -/
def natDecAux : Nat → Nat → List Char
  | 0, _ => []
  | fuel + 1, n =>
    if n < 10 then [digitChar n]
    else natDecAux fuel (n / 10) ++ [digitChar (n % 10)]

/-- Decimal rendering of a natural number. -/
def natDecimal (n : Nat) : String := String.mk (natDecAux (n + 1) n)

/-- Decimal rendering of an integer, with a leading minus sign when
negative. -/
def intDecimal (i : Int) : String :=
  if i < 0 then "-" ++ natDecimal (-i).toNat else natDecimal i.toNat

/-- Reference decimal form of a natural: the standard library's rendering. -/
def specDecimalNat (n : Nat) : String := toString n

/-- Reference decimal form of an integer. -/
def specDecimalInt (i : Int) : String := toString i

/-- Reference decimal form of a boolean. -/
def specDecimalBool (b : Bool) : String := toString b

/-- Reference decimal form of a rational: numerator and denominator in
decimal, the denominator omitted when it is one (the form `TestRealString`
expects, `1/2`). -/
def specDecimalRat (q : Rat) : String :=
  if q.den = 1 then toString q.num else toString q.num ++ "/" ++ toString q.den

/-! ## Dual values (C4, C5) -/

/-- Solver-side term, an opaque syntax tree owned by a context.

Modelled from the spec: the symbolic branch of a dual value holds an opaque
handle to a solver-side term (a free constant, a literal, or a compound
term built by an operator method). -/
inductive STerm where
  | freshConst : String → STerm
  | lit : Int → STerm
  | app : String → STerm → STerm → STerm

/-- Modelled from the spec: a dual value is a tagged union with exactly one
of a concrete field holding the native value or a symbolic field holding a
solver term; which branch is active is fixed at construction. -/
inductive SVal (α : Type) where
  | con : α → SVal α
  | sym : STerm → SVal α

/-- A dual value is concrete when its concrete branch is active. -/
def SVal.isConcrete {α : Type} : SVal α → Bool
  | .con _ => true
  | .sym _ => false

/-- A dual value is symbolic when its symbolic branch is active. -/
def SVal.isSymbolic {α : Type} : SVal α → Bool
  | .con _ => false
  | .sym _ => true

/-- Modelled from the spec: `fromLiteral` always builds a concrete value. -/
def fromLiteral {α : Type} (a : α) : SVal α := .con a

/-- Modelled from the spec: the fresh-value constructors (`AnyInt8`, ...)
always build a symbolic value, a free solver constant of the kind's sort. -/
def anyVal (α : Type) (name : String) : SVal α := .sym (.freshConst name)

/-- Term of a dual value: a concrete value enters a solver expression as a
literal of its kind's sort (via the kind's encoding `enc`). -/
def SVal.toTerm {α : Type} (enc : α → Int) : SVal α → STerm
  | .con a => .lit (enc a)
  | .sym t => t

/-- Modelled from the spec: a binary operator computes natively when both
operands are concrete and builds the equivalent solver term when at least
one operand is symbolic. -/
def SVal.lift2 {α : Type} (f : α → α → α) (enc : α → Int) (method : String) :
    SVal α → SVal α → SVal α
  | .con a, .con b => .con (f a b)
  | x, y => .sym (.app method (x.toTerm enc) (y.toTerm enc))

/-- Render a solver term: the solver-generated syntactic form of a symbolic
value (always non-empty). -/
def renderTerm : STerm → String
  | .freshConst n => n ++ "!0"
  | .lit i => intDecimal i
  | .app m t u => "(" ++ m ++ " " ++ renderTerm t ++ " " ++ renderTerm u ++ ")"

/-- String projection of a dual value: a concrete value renders its native
value through the kind's printer, a symbolic value renders its term. -/
def svalString {α : Type} (printer : α → String) : SVal α → String
  | .con a => printer a
  | .sym t => renderTerm t

/-- Modelled from the spec: the `String` method of the fixed-width signed
and unbounded-integer kinds renders the concrete value in decimal. -/
def stIntString : Int → String := intDecimal

/-- Modelled from the spec: the `String` method of the unsigned kinds. -/
def stUintString : Nat → String := natDecimal

/-- Modelled from the spec: the `String` method of the boolean kind. -/
def stBoolString (b : Bool) : String := if b then "true" else "false"

/-- Modelled from the spec: the `String` method of the rational kind
(`st.Real`) renders numerator and denominator in decimal. -/
def stRealString (q : Rat) : String :=
  if q.den = 1 then intDecimal q.num
  else intDecimal q.num ++ "/" ++ natDecimal q.den

/-- Representative rationals for the round-trip law (the test's `1/2`,
integral and negative cases). -/
def ratReps : List Rat := [mkRat 1 2, mkRat (-3) 4, 42, 0, -1, mkRat 22 7]

/-- Representative unbounded integers, beyond any fixed width. -/
def integerReps : List Int :=
  [0, 1, -1, 42, 1000000000000000000000000000000, -1000000000000000000000000000000]

/-- Round-trip check of one kind: every representative concrete literal
reports its native value back in decimal through the string projection. -/
def roundTripInt (V : List Int) : Bool :=
  V.all fun x => svalString stIntString (fromLiteral x) == specDecimalInt x

/-- Round-trip check for an unsigned kind. -/
def roundTripUint (V : List Nat) : Bool :=
  V.all fun x => svalString stUintString (fromLiteral x) == specDecimalNat x

/-- Round-trip check for the boolean kind. -/
def roundTripBool : Bool :=
  [true, false].all fun x =>
    svalString stBoolString (fromLiteral x) == specDecimalBool x

/-- Round-trip check for the rational kind. -/
def roundTripRat : Bool :=
  ratReps.all fun x => svalString stRealString (fromLiteral x) == specDecimalRat x

/-! ## Operator table and flag sets (C6, C7) -/

/-- Operator flag: equality or relational comparison. -/
def OpCompare : Nat := 1

/-- Operator flag: bit shift (excluded from arithmetic overflow reasoning). -/
def OpShift : Nat := 2

/-- Operator flag: identity unary plus. -/
def OpPos : Nat := 4

/-- Operator descriptor: surface symbol, grammar token, implementing method
name, classification flags.

Modelled from the spec: one descriptor per supported operator; the `ops`
package's table itself is not included in the sources, so the rows are
assembled from the operators the spec and `ops_test.go` name. -/
structure OpDesc where
  op : String
  tok : String
  method : String
  flags : Nat

/-- The binary operator table, in Go operator order.

Modelled from the spec: arithmetic, bitwise, shift and comparison binary
operators; `+` maps to method `Add` (checked by `TestBinOps`), comparison
symbols carry `OpCompare`, shift symbols carry `OpShift`. -/
def BinOps : List OpDesc :=
  [⟨"+", "ADD", "Add", 0⟩,
   ⟨"-", "SUB", "Sub", 0⟩,
   ⟨"*", "MUL", "Mul", 0⟩,
   ⟨"/", "QUO", "Quo", 0⟩,
   ⟨"%", "REM", "Rem", 0⟩,
   ⟨"&", "AND", "And", 0⟩,
   ⟨"|", "OR", "Or", 0⟩,
   ⟨"^", "XOR", "Xor", 0⟩,
   ⟨"&^", "AND_NOT", "AndNot", 0⟩,
   ⟨"<<", "SHL", "Lsh", OpShift⟩,
   ⟨">>", "SHR", "Rsh", OpShift⟩,
   ⟨"==", "EQL", "Eq", OpCompare⟩,
   ⟨"!=", "NEQ", "NE", OpCompare⟩,
   ⟨"<", "LSS", "LT", OpCompare⟩,
   ⟨"<=", "LEQ", "LE", OpCompare⟩,
   ⟨">", "GTR", "GT", OpCompare⟩,
   ⟨">=", "GEQ", "GE", OpCompare⟩]

/-- The unary operator table.

Modelled from the spec: `-` maps to method `Neg` (checked by `TestUnOps`),
the identity unary `+` carries `OpPos`, `^` is bitwise complement. -/
def UnOps : List OpDesc :=
  [⟨"-", "SUB", "Neg", 0⟩,
   ⟨"+", "ADD", "Pos", OpPos⟩,
   ⟨"^", "XOR", "Not", 0⟩]

/-- The comparison symbols. -/
def cmpSymbols : List String := ["==", "!=", "<", "<=", ">", ">="]

/-- Kind classification flag: boolean kind. -/
def IsBool : Nat := 1

/-- Kind classification flag: fixed-width integer kind. -/
def IsInteger : Nat := 2

/-- Kind classification flag: unsigned (meaningful with `IsInteger`). -/
def IsUnsigned : Nat := 4

/-- Kind classification flag: floating-point kind. -/
def IsFloat : Nat := 8

/-- Kind classification flag: arbitrary-precision integer kind. -/
def IsBigInt : Nat := 16

/-- Kind classification flag: arbitrary-precision rational kind. -/
def IsBigRat : Nat := 32

/-- Modelled from the spec: `Comparable` is the flag set of the kinds for
which equality is defined — all kinds. -/
def Comparable : Nat := IsBool ||| IsInteger ||| IsFloat ||| IsBigInt ||| IsBigRat

/-- Modelled from the spec: `Ordered` is the flag set of the kinds for which
the relational operators are defined — every kind except boolean. -/
def Ordered : Nat := IsInteger ||| IsFloat ||| IsBigInt ||| IsBigRat

/-! ## Solver check outcome (C8) -/

/-- Z3's three-valued satisfiability answer (`Z3_lbool`). -/
inductive Lbool where
  | lfalse | lundef | ltrue
deriving DecidableEq

/-- ErrSatUnknown is produced when Z3 cannot determine satisfiability; it
carries Z3's reason string, which `Error()` returns. -/
structure ErrSatUnknown where
  reason : String
deriving DecidableEq

/-- Solver.Check: runs `Z3_solver_check`; when the answer is undefined it
wraps the solver's reason in an `ErrSatUnknown`, and it returns
`res == Z3_L_TRUE` as the boolean result. -/
def solverCheck (res : Lbool) (reasonUnknown : String) : Bool × Option ErrSatUnknown :=
  (match res with | .ltrue => true | _ => false,
   match res with | .lundef => some ⟨reasonUnknown⟩ | _ => none)

/-! ## Pseudo-Boolean constructors and string literals (C9, C10) -/

/-- Solver AST nodes the embedded fragment builds: boolean constants,
string literals and other string-sorted terms, and the pseudo-Boolean
constraint terms `Z3_mk_pble` / `Z3_mk_pbge` / `Z3_mk_pbeq` produce. -/
inductive Z3Ast where
  | boolConst : String → Z3Ast
  | stringLit : String → Z3Ast
  | strConst : String → Z3Ast
  | seqConcat : Z3Ast → Z3Ast → Z3Ast
  | pble : List Z3Ast → List Int → Int → Z3Ast
  | pbge : List Z3Ast → List Int → Int → Z3Ast
  | pbeq : List Z3Ast → List Int → Int → Z3Ast

/-- The panic message of the pseudo-Boolean constructors. -/
def pbLengthMsg : String := "args and coeffs must have the same length"

/-- The Go runtime's message for indexing an empty slice (`&cargs[0]`). -/
def emptySliceMsg : String := "index out of range"

/-- PbLE: panics (modelled as `Except.error`) when `args` and `coeffs`
differ in length, before any solver term is built; otherwise marshals the
slices (taking `&cargs[0]`, which panics on empty input) and builds the
`Z3_mk_pble` term. -/
def PbLE (args : List Z3Ast) (coeffs : List Int) (k : Int) : Except String Z3Ast :=
  if args.length ≠ coeffs.length then .error pbLengthMsg
  else if args.isEmpty then .error emptySliceMsg
  else .ok (.pble args coeffs k)

/-- PbGE: same shape as `PbLE`, building the `Z3_mk_pbge` term. -/
def PbGE (args : List Z3Ast) (coeffs : List Int) (k : Int) : Except String Z3Ast :=
  if args.length ≠ coeffs.length then .error pbLengthMsg
  else if args.isEmpty then .error emptySliceMsg
  else .ok (.pbge args coeffs k)

/-- PbEq: same shape as `PbLE`, building the `Z3_mk_pbeq` term. -/
def PbEq (args : List Z3Ast) (coeffs : List Int) (k : Int) : Except String Z3Ast :=
  if args.length ≠ coeffs.length then .error pbLengthMsg
  else if args.isEmpty then .error emptySliceMsg
  else .ok (.pbeq args coeffs k)

/-- C.CString copies a Go string into a NUL-terminated C string: the callee
observes only the characters before the first NUL. -/
def cMarshal (s : String) : String :=
  String.mk (s.data.takeWhile fun c => decide (c.toNat ≠ 0))

/-- Value of a hexadecimal digit character, 16 for any other character. -/
def hexVal (c : Char) : Nat :=
  if 48 ≤ c.toNat ∧ c.toNat ≤ 57 then c.toNat - 48
  else if 97 ≤ c.toNat ∧ c.toNat ≤ 102 then c.toNat - 87
  else if 65 ≤ c.toNat ∧ c.toNat ≤ 70 then c.toNat - 55
  else 16

/-- Consume hexadecimal digits up to a closing brace, returning the decoded
code point and the rest of the input. -/
def hexSpanAux : Nat → List Char → Option (Nat × List Char)
  | _, [] => none
  | acc, c :: rest =>
    if c = Char.ofNat 125 then some (acc, rest)
    else if hexVal c < 16 then hexSpanAux (acc * 16 + hexVal c) rest
    else none

/-- One pass of Z3's string-literal parser (modelled from the documented
contract of `Z3_mk_string`): a backslash-u-brace escape denotes the escaped
code point, every other character stands for itself.  The fuel argument
makes the recursion structural; `z3Unescape` supplies enough fuel. -/
def z3UnescapeAux : Nat → List Char → List Char
  | 0, cs => cs
  | _ + 1, [] => []
  | fuel + 1, c :: cs =>
    if c = '\\' then
      match cs with
      | u :: lb :: rest =>
        if u = 'u' ∧ lb = Char.ofNat 123 then
          match hexSpanAux 0 rest with
          | some (v, r) => Char.ofNat v :: z3UnescapeAux fuel r
          | none => c :: z3UnescapeAux fuel cs
        else c :: z3UnescapeAux fuel cs
      | _ => c :: z3UnescapeAux fuel cs
    else c :: z3UnescapeAux fuel cs

/-- Z3's string-literal parser on a character list. -/
def z3Unescape (cs : List Char) : List Char := z3UnescapeAux cs.length cs

/-- Hexadecimal digit character. -/
def hexDigitChar (d : Nat) : Char :=
  if d < 10 then Char.ofNat (48 + d) else Char.ofNat (87 + d)

/-- Fuel-driven hexadecimal digit list of a natural. -/
def hexDigitsAux : Nat → Nat → List Char
  | 0, _ => []
  | fuel + 1, n =>
    if n < 16 then [hexDigitChar n]
    else hexDigitsAux fuel (n / 16) ++ [hexDigitChar (n % 16)]

/-- Hexadecimal rendering of a natural number. -/
def hexDigits (n : Nat) : List Char := hexDigitsAux (n + 1) n

/-- How Z3 renders one stored character when a literal is read back
(modelled from the documented contract of `Z3_get_string`): printable
characters other than the escape introducer are kept literal, the rest are
escaped. -/
def z3EscapeChar (c : Char) : List Char :=
  if 32 ≤ c.toNat ∧ c.toNat ≤ 126 ∧ c ≠ '\\' then [c]
  else '\\' :: 'u' :: Char.ofNat 123 :: (hexDigits c.toNat ++ [Char.ofNat 125])

/-- Z3's rendering of a stored character sequence. -/
def z3Escape : List Char → List Char
  | [] => []
  | c :: cs => z3EscapeChar c ++ z3Escape cs

/-- Characters that pass the whole marshalling pipeline unchanged:
printable ASCII other than the backslash escape introducer (in particular
not NUL, so `C.CString` keeps them too). -/
def z3PlainChar (c : Char) : Bool :=
  decide (32 ≤ c.toNat) && decide (c.toNat ≤ 126) && decide (c ≠ '\\')

/-- FromString returns a string literal with value `val`: the Go string is
marshalled through `C.CString` — losing everything from the first embedded
NUL on — and handed to `Z3_mk_string`, which parses escape sequences. -/
def FromString (val : String) : Z3Ast :=
  .stringLit (String.mk (z3Unescape (cMarshal val).data))

/-- Z3_is_string: a term is a string literal exactly when it was built by
`Z3_mk_string`. -/
def isStringLiteral : Z3Ast → Bool
  | .stringLit _ => true
  | _ => false

/-- AsString returns the value of the receiver rendered by `Z3_get_string`
paired with `true` when the receiver is a string literal; otherwise it
returns `("", false)`. -/
def AsString : Z3Ast → String × Bool
  | .stringLit s => (String.mk (z3Escape s.data), true)
  | _ => ("", false)

/-! ## Theorems for the claims -/

set_option maxHeartbeats 4000000 in
/-- C1: For every fixed-width kind and every operator applicable to it, on
every admissible pair drawn from the kind's representative value set the
native (concrete-path) result equals the value the symbolic bit-vector
encoding yields with both operands bound to the pair; and for that value,
asserting `symbolic_result == literal(r_native)` is satisfiable while
asserting `symbolic_result != literal(r_native)` in an independent session
is unsatisfiable, so the native result is the unique admitted value. -/
theorem equiv_oracle_all_kinds :
    (checkKindU 8 uint8Reps = true ∧ checkKindU 16 uint16Reps = true ∧
     checkKindU 64 uint64Reps = true ∧ checkKindS 8 int8Reps = true ∧
     checkKindS 16 int16Reps = true ∧ checkKindS 64 int64Reps = true) ∧
    (∀ (w : Nat) (op : AOp) (a b : Nat),
      sessionOneSatU w op a b (bvArithU w op a b) ∧
      sessionTwoUnsatU w op a b (bvArithU w op a b)) ∧
    (∀ (w : Nat) (op : AOp) (p q : Nat),
      sessionOneSatS w op p q (bvArithS w op p q) ∧
      sessionTwoUnsatS w op p q (bvArithS w op p q)) := by
  refine ⟨⟨by decide, by decide, by decide, by decide, by decide, by decide⟩, ?_, ?_⟩
  · intro w op a b
    constructor
    · exact ⟨a, b, rfl, rfl, rfl⟩
    · rintro ⟨xa, xb, rfl, rfl, hne⟩
      exact hne rfl
  · intro w op p q
    constructor
    · exact ⟨p, q, rfl, rfl, rfl⟩
    · rintro ⟨xa, xb, rfl, rfl, hne⟩
      exact hne rfl

/-- C2: On the 8-bit unsigned kind, adding the concrete literals 200 and
100 wraps to 44 on the native path, and the symbolic bit-vector encoding of
the addition with both operands bound to 200 and 100 admits 44 and admits
no other value (asserting a different value is unsatisfiable). -/
theorem uint8_add_wraps :
    goUArith 8 AOp.add 200 100 = 44 ∧
    (∀ r : Nat, sessionOneSatU 8 AOp.add 200 100 r ↔ r = 44) ∧
    sessionTwoUnsatU 8 AOp.add 200 100 44 := by
  refine ⟨by decide, ?_, ?_⟩
  · intro r
    constructor
    · rintro ⟨xa, xb, rfl, rfl, h⟩
      rw [show bvArithU 8 AOp.add 200 100 = 44 by decide] at h
      exact h.symm
    · rintro rfl
      exact ⟨200, 100, rfl, rfl, by decide⟩
  · rintro ⟨xa, xb, rfl, rfl, hne⟩
    exact hne (by decide)

/-- C3: On the unbounded-integer kind, the remainder of -23 by 5 is 2 and
the division of 23 by 5 is 4 (floor convention), identically on the
concrete path and on the symbolic path through the solver's integer theory
(whose `Mod` also gives `23 mod 5 = 3`, as `TestIntMod` checks). -/
theorem integer_floor_conventions :
    integerRem (-23) 5 = 2 ∧ integerDiv 23 5 = 4 ∧
    z3IntRem (-23) 5 = 2 ∧ z3IntDiv 23 5 = 4 ∧ z3IntMod 23 5 = 3 := by
  refine ⟨by decide, by decide, by decide, by decide, by decide⟩

set_option maxHeartbeats 1000000 in
/-- C4: For every kind and every representative value `x` of that kind, the
string projection of the concrete literal constructor renders exactly the
decimal form of `x` — `toString (fromLiteral x) = decimal x` — including
the arbitrary-precision integer and rational kinds and the boolean kind. -/
theorem round_trip_decimal :
    roundTripBool = true ∧
    roundTripInt int8Reps = true ∧ roundTripInt int16Reps = true ∧
    roundTripInt int64Reps = true ∧ roundTripInt integerReps = true ∧
    roundTripUint uint8Reps = true ∧ roundTripUint uint16Reps = true ∧
    roundTripUint uint64Reps = true ∧ roundTripRat = true := by
  refine ⟨by decide, by decide, by decide, by decide, by decide, by decide, by decide,
    by decide, by decide⟩

/-- C5: A dual value is exactly one of concrete or symbolic, fixed at
construction; every binary operator yields a symbolic result exactly when
at least one operand is symbolic (and hence a concrete result when both
operands are concrete); the fresh constructors always build symbolic
values and the literal constructor always builds concrete values. -/
theorem mode_infection :
    (∀ (α : Type) (f : α → α → α) (enc : α → Int) (m : String) (x y : SVal α),
      (SVal.lift2 f enc m x y).isSymbolic = (x.isSymbolic || y.isSymbolic)) ∧
    (∀ (α : Type) (v : SVal α), v.isConcrete = !v.isSymbolic) ∧
    (∀ (α : Type) (nm : String), (anyVal α nm).isSymbolic = true) ∧
    (∀ (α : Type) (a : α), (fromLiteral a).isConcrete = true) := by
  refine ⟨?_, ?_, ?_, ?_⟩
  · intro α f enc m x y
    cases x <;> cases y <;> rfl
  · intro α v
    cases v <;> rfl
  · intro α nm
    rfl
  · intro α a
    rfl

/-- C6: In the operator table, every binary operator whose symbol is one of
`==`, `!=`, `<`, `<=`, `>`, `>=` carries `OpCompare`; a binary operator
carries `OpShift` exactly when its symbol is `<<` or `>>`; no unary
operator carries `OpShift`; and the unary `+` carries `OpPos`. -/
theorem op_table_flags :
    (BinOps.all fun o => !cmpSymbols.contains o.op || ((o.flags &&& OpCompare) != 0)) = true ∧
    (BinOps.all fun o => ((o.op == "<<" || o.op == ">>") == ((o.flags &&& OpShift) != 0))) = true ∧
    (UnOps.all fun o => ((o.flags &&& OpShift) == 0)) = true ∧
    (UnOps.all fun o => !(o.op == "+") || ((o.flags &&& OpPos) != 0)) = true := by
  refine ⟨by decide, by decide, by decide, by decide⟩

/-- C7: The derived flag set `Comparable` covers every kind classification
(`IsBool`, `IsInteger`, `IsFloat`, `IsBigInt`, `IsBigRat`), the derived
flag set `Ordered` covers every kind classification except `IsBool`, and
`Comparable` is a superset of `Ordered` united with the boolean kind. -/
theorem flag_sets_cover :
    (Comparable &&& IsBool ≠ 0) ∧ (Comparable &&& IsInteger ≠ 0) ∧
    (Comparable &&& IsFloat ≠ 0) ∧ (Comparable &&& IsBigInt ≠ 0) ∧
    (Comparable &&& IsBigRat ≠ 0) ∧
    (Ordered &&& IsBool = 0) ∧ (Ordered &&& IsInteger ≠ 0) ∧
    (Ordered &&& IsFloat ≠ 0) ∧ (Ordered &&& IsBigInt ≠ 0) ∧
    (Ordered &&& IsBigRat ≠ 0) ∧
    (Comparable &&& (Ordered ||| IsBool) = Ordered ||| IsBool) := by
  decide

/-- C8: `Solver.Check` returns a non-nil error exactly when the solver
reports the undefined outcome; that error is an `ErrSatUnknown` carrying
the solver's reason string, and the boolean result equals
`res == Z3_L_TRUE` (in particular it is false on the undefined outcome and
true exactly on sat otherwise). -/
theorem solver_check_unknown :
    ∀ (res : Lbool) (reason : String),
      ((solverCheck res reason).2 =
        if res = Lbool.lundef then some ⟨reason⟩ else none) ∧
      (((solverCheck res reason).2 ≠ none) ↔ res = Lbool.lundef) ∧
      ((solverCheck res reason).1 = decide (res = Lbool.ltrue)) := by
  intro res reason
  cases res <;> simp [solverCheck]

/-- Auxiliary: outcome analysis of the guard shape the three pseudo-Boolean
constructors share (length check first, then the marshalling step that
takes the address of the first slice element). -/
theorem pbSpecAux (args : List Z3Ast) (coeffs : List Int) (e : Z3Ast) :
    ((if args.length ≠ coeffs.length then (Except.error pbLengthMsg : Except String Z3Ast)
        else if args.isEmpty then Except.error emptySliceMsg else Except.ok e) =
        Except.error pbLengthMsg ↔ args.length ≠ coeffs.length) ∧
    ((∃ t, (if args.length ≠ coeffs.length then (Except.error pbLengthMsg : Except String Z3Ast)
        else if args.isEmpty then Except.error emptySliceMsg else Except.ok e) =
        Except.ok t) ↔ (args.length = coeffs.length ∧ args ≠ [])) := by
  by_cases h : args.length = coeffs.length
  · have hne : ¬ args.length ≠ coeffs.length := fun hc => hc h
    rw [if_neg hne]
    by_cases he : args.isEmpty
    · rw [if_pos he]
      have hnil : args = [] := by
        cases args with
        | nil => rfl
        | cons a t => simp [List.isEmpty] at he
      constructor
      · constructor
        · intro hr
          exact absurd (Except.error.inj hr) (by decide)
        · intro hc
          exact absurd h hc
      · constructor
        · rintro ⟨t, ht⟩
          exact Except.noConfusion ht
        · rintro ⟨-, hnn⟩
          exact absurd hnil hnn
    · rw [if_neg he]
      have hnil : args ≠ [] := by
        intro hc
        subst hc
        simp [List.isEmpty] at he
      constructor
      · constructor
        · intro hr
          exact Except.noConfusion hr
        · intro hc
          exact absurd h hc
      · constructor
        · intro _
          exact ⟨h, hnil⟩
        · intro _
          exact ⟨e, rfl⟩
  · rw [if_pos h]
    constructor
    · exact ⟨fun _ => h, fun _ => rfl⟩
    · constructor
      · rintro ⟨t, ht⟩
        exact Except.noConfusion ht
      · rintro ⟨heq, -⟩
        exact absurd heq h

/-- C9: `PbLE`, `PbGE` and `PbEq` fail with the message "args and coeffs
must have the same length" exactly when the two slices differ in length
(before any solver term is built), and on equal lengths they return a
constraint term for every non-empty input. -/
theorem pb_length_guard :
    ∀ (args : List Z3Ast) (coeffs : List Int) (k : Int),
      ((PbLE args coeffs k = Except.error pbLengthMsg) ↔ args.length ≠ coeffs.length) ∧
      ((PbGE args coeffs k = Except.error pbLengthMsg) ↔ args.length ≠ coeffs.length) ∧
      ((PbEq args coeffs k = Except.error pbLengthMsg) ↔ args.length ≠ coeffs.length) ∧
      ((∃ t, PbLE args coeffs k = Except.ok t) ↔ (args.length = coeffs.length ∧ args ≠ [])) ∧
      ((∃ t, PbGE args coeffs k = Except.ok t) ↔ (args.length = coeffs.length ∧ args ≠ [])) ∧
      ((∃ t, PbEq args coeffs k = Except.ok t) ↔ (args.length = coeffs.length ∧ args ≠ [])) := by
  intro args coeffs k
  have hle := pbSpecAux args coeffs (.pble args coeffs k)
  have hge := pbSpecAux args coeffs (.pbge args coeffs k)
  have heq := pbSpecAux args coeffs (.pbeq args coeffs k)
  exact ⟨hle.1, hge.1, heq.1, hle.2, hge.2, heq.2⟩

/-- Auxiliary: the C-string marshalling keeps a character list intact when
every character is plain (plain characters are printable, hence not NUL). -/
theorem cMarshalPlain (cs : List Char) (h : cs.all z3PlainChar = true) :
    cs.takeWhile (fun c => decide (c.toNat ≠ 0)) = cs := by
  induction cs with
  | nil => rfl
  | cons c cs ih =>
    simp only [List.all_cons, Bool.and_eq_true] at h
    have h32 : 32 ≤ c.toNat := by
      have hp := h.1
      simp only [z3PlainChar, Bool.and_eq_true, decide_eq_true_eq] at hp
      exact hp.1.1
    have hc : decide (c.toNat ≠ 0) = true := decide_eq_true_eq.mpr (by omega)
    rw [List.takeWhile_cons, if_pos hc, ih h.2]

/-- Auxiliary: Z3's string-literal parser keeps a character list intact
when no character is the escape introducer. -/
theorem z3UnescapePlain (fuel : Nat) (cs : List Char)
    (h : cs.all (fun c => decide (c ≠ Char.ofNat 92)) = true) :
    z3UnescapeAux fuel cs = cs := by
  induction fuel generalizing cs with
  | zero => rfl
  | succ f ih =>
    cases cs with
    | nil => rfl
    | cons c cs2 =>
      simp only [List.all_cons, Bool.and_eq_true] at h
      have hne : c ≠ '\\' := by
        have hp := decide_eq_true_eq.mp h.1
        intro hc
        exact hp (hc.trans rfl)
      simp only [z3UnescapeAux]
      rw [if_neg hne, ih cs2 h.2]

/-- Auxiliary: Z3's rendering keeps a character list intact when every
character is plain. -/
theorem z3EscapePlain (cs : List Char) (h : cs.all z3PlainChar = true) :
    z3Escape cs = cs := by
  induction cs with
  | nil => rfl
  | cons c cs ih =>
    simp only [List.all_cons, Bool.and_eq_true] at h
    have hp := h.1
    simp only [z3PlainChar, Bool.and_eq_true, decide_eq_true_eq] at hp
    have hc : z3EscapeChar c = [c] := by
      simp only [z3EscapeChar]
      rw [if_pos ⟨hp.1.1, hp.1.2, hp.2⟩]
    simp only [z3Escape]
    rw [hc, ih h.2]
    rfl

/-- Auxiliary: a list of plain characters contains no escape introducer. -/
theorem plainNoBackslash (cs : List Char) (h : cs.all z3PlainChar = true) :
    cs.all (fun c => decide (c ≠ Char.ofNat 92)) = true := by
  induction cs with
  | nil => rfl
  | cons c cs ih =>
    simp only [List.all_cons, Bool.and_eq_true] at h ⊢
    refine ⟨?_, ih h.2⟩
    have hp := h.1
    simp only [z3PlainChar, Bool.and_eq_true, decide_eq_true_eq] at hp
    exact decide_eq_true_eq.mpr (fun hc => hp.2 (hc.trans rfl))

/-- C10 (amended): `AsString` returns `("", false)` whenever the receiver
is not a string literal; and a value built by `FromString s` round-trips to
`(s, true)` for every `s` made of printable ASCII characters other than
backslash.  The original claim's round-trip for arbitrary `s` fails: the
source marshals through `C.CString` into the NUL-terminated `Z3_mk_string`,
so everything from an embedded NUL on is lost. -/
theorem as_string_literal_plain :
    (∀ v : Z3Ast, isStringLiteral v = false → AsString v = ("", false)) ∧
    (∀ s : String, s.data.all z3PlainChar = true → AsString (FromString s) = (s, true)) := by
  constructor
  · intro v hv
    cases v with
    | stringLit s => exact Bool.noConfusion hv
    | boolConst s => rfl
    | strConst s => rfl
    | seqConcat a b => rfl
    | pble a c k => rfl
    | pbge a c k => rfl
    | pbeq a c k => rfl
  · intro s hs
    have hmk : ∀ l : List Char, (String.mk l).data = l := fun l => rfl
    simp only [FromString, AsString, cMarshal, z3Unescape, hmk]
    rw [cMarshalPlain s.data hs,
      z3UnescapePlain s.data.length s.data (plainNoBackslash s.data hs),
      z3EscapePlain s.data hs]

/-- C10 (counterexample): the frozen claim's unconditional round-trip fails
at the concrete input `"a\x00b"` — the C-string marshalling truncates at
the embedded NUL, so `AsString` reports `("a", true)` rather than the
original string. -/
theorem as_string_nul_lost :
    AsString (FromString "a\x00b") ≠ ("a\x00b", true) ∧
    AsString (FromString "a\x00b") = ("a", true) := by
  refine ⟨by decide, by decide⟩
